import Mathlib

/-!
Shallow embedding of the "Learn and Conquer" study-assistant application
(src/App.tsx, src/types.ts, src/unnamed/part_000) and proofs of the
behavioural claims about it.

The React components keep their state in `useState` hooks; we embed each
mode controller's state as a structure and each event handler as a pure
state-transition function.  Provider calls (the remote generative-AI
service) are passed in as function parameters; calls that the code issues
are recorded explicitly in the return value so that "the call is made
exactly once" style properties can be stated.  JavaScript string
truthiness (`undefined`/`""` are falsy) is modelled by `strTruthy` on
`Option String`.
-/

namespace LearnAndConquer

/-- `role` field of a chat `Message` (types.ts: `'user' | 'model'`). -/
inductive Role where
  | user
  | model
deriving DecidableEq, Repr

/-- types.ts `Message`: one chat turn. -/
structure Message where
  id : String
  role : Role
  text : String
  timestamp : Nat
deriving DecidableEq, Repr

/-- types.ts `Flashcard`.  The optional fields are `Option String`;
JavaScript truthiness on them is modelled by `strTruthy`. -/
structure Flashcard where
  front : String
  back : String
  imageKeyword : Option String
  generatedImage : Option String
deriving DecidableEq, Repr

/-- types.ts `QuizQuestion`. -/
structure QuizQuestion where
  question : String
  options : List String
  correctAnswerIndex : Nat
  explanation : String
deriving DecidableEq, Repr

/-- types.ts `Book` (the fields the library search uses). -/
structure Book where
  id : String
  title : String
  author : String
  coverColor : String
  summary : String
  content : String
deriving DecidableEq, Repr

/-- types.ts `User`. -/
structure User where
  name : String
  email : String
  isLoggedIn : Bool
deriving DecidableEq, Repr

/-- JavaScript truthiness of an optional string: `undefined` and `""` are
falsy, every other string is truthy. -/
def strTruthy : Option String → Bool
  | none => false
  | some s => s != ""

/-! ## Quiz mode (App.tsx `QuizView`) -/

/-- The `useState` hooks of `QuizView` that the quiz flow touches. -/
structure QuizState where
  questions : List QuizQuestion
  currentIndex : Nat
  score : Nat
  selectedAnswer : Option Nat
  showResult : Bool
deriving DecidableEq, Repr

/-- App.tsx `handleAnswer` (lines 688-694): reject re-selection, record the
selected index, and increment the score when it matches the current
question's `correctAnswerIndex`. -/
def handleAnswer (st : QuizState) (index : Nat) : QuizState :=
  match st.selectedAnswer with
  | some _ => st
  | none =>
    let st' := { st with selectedAnswer := some index }
    match st.questions[st.currentIndex]? with
    | some q => if index = q.correctAnswerIndex then { st' with score := st'.score + 1 } else st'
    | none => st'

/-- App.tsx `nextQuestion` (lines 696-703): advance to the next question or
enter the terminal `Result` state. -/
def nextQuestion (st : QuizState) : QuizState :=
  if st.currentIndex < st.questions.length - 1 then
    { st with currentIndex := st.currentIndex + 1, selectedAnswer := none }
  else
    { st with showResult := true }

/-- One full question interaction of a quiz run: answer it, then press
Next. -/
def quizStep (st : QuizState) (answer : Nat) : QuizState :=
  nextQuestion (handleAnswer st answer)

/-- The state `handleStart` leaves behind once the generated questions
arrive (App.tsx lines 676-680). -/
def quizInit (qs : List QuizQuestion) : QuizState :=
  { questions := qs, currentIndex := 0, score := 0, selectedAnswer := none, showResult := false }

/-- A full quiz run: one accepted answer per question, pressing Next after
each. -/
def runQuiz (qs : List QuizQuestion) (answers : List Nat) : QuizState :=
  answers.foldl quizStep (quizInit qs)

/-- The number of positions where the chosen answer equals the question's
`correctAnswerIndex`. -/
def matchCount : List QuizQuestion → List Nat → Nat
  | q :: qs, a :: as => (if a = q.correctAnswerIndex then 1 else 0) + matchCount qs as
  | _, _ => 0

/-! ## Admin toggle (App.tsx `SettingsView`) -/

/-- The fixed shared secret compared against the prompt reply
(App.tsx line 261). -/
def ownerPassword : String := "ag12de34"

/-- The one account email the Owner Mode section is rendered for
(App.tsx line 340). -/
def ownerEmail : String := "agdealers8@gmail.com"

/-- Observable outcome of one click on the Owner Mode switch. -/
structure AdminToggleOutcome where
  adminAfter : Bool
  promptShown : Bool
  deniedAlert : Bool
deriving DecidableEq, Repr

/-- App.tsx `handleAdminToggle` (lines 256-267) combined with the
`onToggleAdmin` callback `() => setIsAdminMode(!isAdminMode)`
(App.tsx line 1286).  `promptReply` is what `prompt` returned
(`none` models the user cancelling, which yields `null`). -/
def handleAdminToggle (isAdminMode : Bool) (promptReply : Option String) : AdminToggleOutcome :=
  if isAdminMode then
    { adminAfter := !isAdminMode, promptShown := false, deniedAlert := false }
  else if promptReply = some ownerPassword then
    { adminAfter := !isAdminMode, promptShown := true, deniedAlert := false }
  else
    { adminAfter := isAdminMode, promptShown := true, deniedAlert := true }

/-- App.tsx line 340: the Owner Mode section is rendered only when
`user.email === 'agdealers8@gmail.com'`. -/
def adminToggleOffered (u : User) : Bool :=
  u.email = ownerEmail

/-! ## Flashcard navigation (App.tsx `FlashcardView`) -/

/-- App.tsx `handleNext` (lines 552-558): `(prev + 1) % cards.length`.
JavaScript numbers are modelled by `Int`; for the in-range inputs the
claims quantify over, JavaScript `%` agrees with `Int.emod`. -/
def handleNext (currentIndex : Int) (numCards : Int) : Int :=
  (currentIndex + 1) % numCards

/-- App.tsx `handlePrev` (lines 560-563):
`(prev - 1 + cards.length) % cards.length`. -/
def handlePrev (currentIndex : Int) (numCards : Int) : Int :=
  (currentIndex - 1 + numCards) % numCards

/-! ## Planner focus timer (App.tsx `PlannerView`) -/

/-- The timer-related `useState` hooks of `PlannerView`
(lines 377-379).  `timerMode` is the TS string union `'work' | 'break'`. -/
structure TimerState where
  timerSeconds : Nat
  isTimerRunning : Bool
  timerMode : String
deriving DecidableEq, Repr

/-- One instant of the timer effect (App.tsx lines 381-394): while running
with a positive count the armed interval decrements by one; at zero while
still running the effect stops the timer and fires the
sound-plus-alert notification (the returned `Bool`); otherwise nothing
happens. -/
def timerStep (st : TimerState) : TimerState × Bool :=
  if st.isTimerRunning = true ∧ st.timerSeconds > 0 then
    ({ st with timerSeconds := st.timerSeconds - 1 }, false)
  else if st.timerSeconds = 0 ∧ st.isTimerRunning = true then
    ({ st with isTimerRunning := false }, true)
  else
    (st, false)

/-- Run the timer for `n` instants, counting fired notifications. -/
def runTimer (st : TimerState) : Nat → TimerState × Nat
  | 0 => (st, 0)
  | n + 1 =>
    let first := timerStep st
    let rest := runTimer first.1 n
    (rest.1, (if first.2 then 1 else 0) + rest.2)

/-- App.tsx `startTimer` (lines 396-400): sets all three timer fields,
regardless of the previous state. -/
def startTimer (st : TimerState) (minutes : Nat) (mode : String) : TimerState :=
  { st with timerMode := mode, timerSeconds := minutes * 60, isTimerRunning := true }

/-- The "Start Focus (25m)" button (App.tsx line 455). -/
def startFocusButton (st : TimerState) : TimerState :=
  startTimer st 25 "work"

/-- The "Break (5m)" button (App.tsx line 458). -/
def startBreakButton (st : TimerState) : TimerState :=
  startTimer st 5 "break"

/-- The "Stop" button (App.tsx lines 463-465):
`() => setIsTimerRunning(false)`. -/
def stopButton (st : TimerState) : TimerState :=
  { st with isTimerRunning := false }

/-! ## Library search (App.tsx `LibraryView`) -/

/-- JavaScript `a.toLowerCase().includes(b.toLowerCase())`: case-insensitive
contiguous substring containment, on the character sequences. -/
def strIncludesCI (s sub : String) : Bool :=
  decide (sub.toLower.toList <:+: s.toLower.toList)

/-- The predicate of both local filters in `LibraryView`
(App.tsx lines 942 and 964):
`b.title.toLowerCase().includes(searchQuery.toLowerCase())`. -/
def titleMatches (query : String) (b : Book) : Bool :=
  strIncludesCI b.title query

/-- App.tsx line 942 / 964: the local in-memory filter. -/
def localResults (books : List Book) (query : String) : List Book :=
  books.filter (titleMatches query)

/-- The provider's reply to `findExternalBookResource` (part_000
lines 176-207), as seen by the caller. -/
structure ExternalResource where
  found : Bool
  title : Option String
  link : Option String
  description : Option String
deriving DecidableEq, Repr

/-- Observable outcome of App.tsx `handleSearch` (lines 940-954):
the final `externalLink` state and the list of external-resource
provider calls issued (queries, in order). -/
structure SearchOutcome where
  externalLink : Option ExternalResource
  externalCalls : List String
deriving DecidableEq, Repr

/-- App.tsx `handleSearch` (lines 940-954): clear `externalLink`, filter
the local book set, and only when that filter is empty and the query is
longer than 3 characters issue one `findExternalBookResource` call,
storing its result when `found`. -/
def handleSearch (books : List Book) (query : String)
    (provider : String → ExternalResource) : SearchOutcome :=
  if (localResults books query).length = 0 ∧ query.length > 3 then
    let res := provider query
    { externalLink := if res.found then some res else none,
      externalCalls := [query] }
  else
    { externalLink := none, externalCalls := [] }

/-! ## Flashcard lazy illustration (App.tsx `FlashcardView`, `loadImg`) -/

/-- App.tsx `loadImg` effect (lines 575-588): for the currently viewed
card, when it exists, lacks a (truthy) `generatedImage` and has a
(truthy) `imageKeyword`, call `generateIllustration` with that keyword
and, when an image comes back, set that one card's `generatedImage`.
Returns the updated card list and the keyword fetched (`none` when no
provider call was made). -/
def loadImg (cards : List Flashcard) (currentIndex : Nat)
    (illustrate : String → Option String) : List Flashcard × Option String :=
  match cards[currentIndex]? with
  | some card =>
    match card.imageKeyword with
    | some kw =>
      if !(strTruthy card.generatedImage) && kw != "" then
        match illustrate kw with
        | some imgData =>
          (cards.set currentIndex { card with generatedImage := some imgData }, some kw)
        | none => (cards, some kw)
      else (cards, none)
    | none => (cards, none)
  | none => (cards, none)

/-! ## Streaming chat (part_000 `streamChatResponse`, App.tsx `ChatView`) -/

/-- part_000 `streamChatResponse` (lines 51-59): fold over the raw chunks
of the provider stream, skipping falsy (empty) ones; accumulates the
`fullText` buffer and records the fragments delivered to `onChunk`, in
order. -/
def streamChatDeliver (chunks : List String) : String × List String :=
  chunks.foldl
    (fun st c => if c != "" then (st.1 ++ c, st.2 ++ [c]) else st)
    ("", [])

/-- Replace the text of every message whose id is `aiMsgId`
(the body of the `setMessages` updates in App.tsx lines 1156 and 1173). -/
def updMsg (aiMsgId : String) (t : String) (m : Message) : Message :=
  if m.id = aiMsgId then { m with text := t } else m

/-- App.tsx `handleSend`'s `onChunk` callback (lines 1154-1157), applied to
a list of delivered fragments in order: each fragment is appended to the
running `fullText` buffer and the placeholder message's text is replaced
wholesale with the cumulative buffer. -/
def applyChunks (msgs : List Message) (aiMsgId : String) (delivered : List String) :
    List Message × String :=
  delivered.foldl
    (fun st chunk =>
      let fullText := st.2 ++ chunk
      (st.1.map (updMsg aiMsgId fullText), fullText))
    (msgs, "")

/-- JavaScript `input.trim()`: strip leading and trailing whitespace
(modelled structurally so that it evaluates). -/
def strTrim (s : String) : String :=
  String.mk (((s.data.dropWhile Char.isWhitespace).reverse.dropWhile
    Char.isWhitespace).reverse)

/-- The fixed apology shown when the provider call fails
(App.tsx line 1173). -/
def apologyText : String := "I'm having trouble connecting. Please try again."

/-- The `useState` hooks of `ChatView` that a send touches. -/
structure ChatState where
  messages : List Message
  isTyping : Bool
deriving DecidableEq, Repr

/-- The user message `handleSend` appends (App.tsx line 1143). -/
def sendUserMsg (input : String) (now : Nat) : Message :=
  { id := toString now, role := Role.user, text := input, timestamp := now }

/-- The freshly allocated id of the model-role placeholder
(App.tsx line 1149). -/
def sendAiMsgId (now : Nat) : String :=
  toString (now + 1)

/-- The empty model-role placeholder `handleSend` appends
(App.tsx line 1150). -/
def sendPlaceholder (now : Nat) : Message :=
  { id := sendAiMsgId now, role := Role.model, text := "", timestamp := now }

/-- The message list right after the two optimistic appends of
`handleSend` (App.tsx lines 1144 and 1150). -/
def chatMsgs1 (st : ChatState) (input : String) (now : Nat) : List Message :=
  st.messages ++ [sendUserMsg input now, sendPlaceholder now]

/-- How one chat turn's provider stream ends: the stream completes after
delivering `chunks` (the raw provider chunks, still containing empties),
or it raises an error after `delivered` fragments already reached the
`onChunk` callback. -/
inductive StreamOutcome where
  | success (chunks : List String)
  | failure (delivered : List String)

/-- App.tsx `handleSend` (lines 1140-1177): guard on blank input, append
the user message and the empty placeholder, stream (filtering empty
chunks in part_000, accumulating in the callback), and on error overwrite
the placeholder's text with `apologyText`; `setIsTyping(false)` runs in
the `finally` block either way. -/
def handleSend (st : ChatState) (input : String) (now : Nat)
    (outcome : StreamOutcome) : ChatState :=
  if strTrim input = "" then st
  else
    let aiMsgId := sendAiMsgId now
    let msgs1 := chatMsgs1 st input now
    match outcome with
    | StreamOutcome.success chunks =>
      { messages := (applyChunks msgs1 aiMsgId (streamChatDeliver chunks).2).1,
        isTyping := false }
    | StreamOutcome.failure delivered =>
      let streamed := (applyChunks msgs1 aiMsgId delivered).1
      { messages := streamed.map (updMsg aiMsgId apologyText),
        isTyping := false }

/-- The guard of the `loadImg` effect, as the spec words it: the fetch
runs exactly when the currently viewed card exists, lacks a (truthy)
generated image and has a (truthy) image keyword. -/
def shouldFetch (cards : List Flashcard) (i : Nat) : Bool :=
  match cards[i]? with
  | some c => !strTruthy c.generatedImage && strTruthy c.imageKeyword
  | none => false

/-- Concatenation of a fragment list, in order (the reference value the
spec compares the final message text against). -/
def concatList : List String → String
  | [] => ""
  | c :: cs => c ++ concatList cs

/-! ## Theorems -/

/-- C3: For every quiz question, once an answer has been selected, any
subsequent `handleAnswer` call for that same question leaves both `score`
and `selectedAnswer` unchanged (answer selection is a one-way
unanswered-to-answered transition). -/
theorem C3_answer_selection_one_way (st : QuizState) (i j : Nat)
    (h : st.selectedAnswer.isSome = true) :
    handleAnswer st j = st ∧ handleAnswer (handleAnswer st i) j = handleAnswer st i := by
  obtain ⟨a, ha⟩ := Option.isSome_iff_exists.mp h
  constructor <;> simp [handleAnswer, ha]

/-- Witness for C3 at a concrete answered quiz state. -/
theorem C3_answer_selection_one_way_witness :
    let st : QuizState :=
      { questions := [⟨"q", ["a", "b"], 1, "e"⟩], currentIndex := 0,
        score := 1, selectedAnswer := some 1, showResult := false }
    handleAnswer st 0 = st ∧ handleAnswer (handleAnswer st 0) 0 = handleAnswer st 0 :=
  C3_answer_selection_one_way _ 0 0 (by decide)

/-- C5, counterexample: the claim says every toggle of the admin
capability requires typing the shared secret, but when admin mode is
already on, one click flips it off with no password prompt at all (and no
denial): App.tsx lines 257-258 call `onToggleAdmin()` directly. -/
theorem C5_counterexample_toggle_off_needs_no_secret :
    (handleAdminToggle true none).adminAfter = false ∧
      (handleAdminToggle true none).promptShown = false ∧
      (handleAdminToggle true none).deniedAlert = false := by
  decide

/-- C5, amended: enabling the admin capability (from off) requires typing
the fixed shared secret, checked by exact match; the correct secret turns
the flag on, any other reply (including cancelling) leaves it off and
surfaces the fixed denial; disabling an already-on admin mode needs no
secret and shows no prompt; and the toggle is only offered to the one
designated account email. -/
theorem C5_admin_toggle_gate (reply : Option String) (u : User) :
    (handleAdminToggle false reply).adminAfter = decide (reply = some ownerPassword) ∧
      (handleAdminToggle false reply).promptShown = true ∧
      (handleAdminToggle false reply).deniedAlert = !decide (reply = some ownerPassword) ∧
      (handleAdminToggle true reply).adminAfter = false ∧
      (handleAdminToggle true reply).promptShown = false ∧
      adminToggleOffered u = decide (u.email = ownerEmail) := by
  by_cases h : reply = some ownerPassword <;>
    simp [handleAdminToggle, adminToggleOffered, h]

/-- C8: for every non-empty card list of `N` cards, `handleNext` from
index `N-1` yields `0`, `handlePrev` from index `0` yields `N-1`, and
both operations keep any in-range index within `[0, N)`. -/
theorem C8_flashcard_navigation_wraps (cards : List Flashcard) (i : Int)
    (hne : cards ≠ []) (h0 : 0 ≤ i) (hi : i < (cards.length : Int)) :
    handleNext ((cards.length : Int) - 1) (cards.length : Int) = 0 ∧
      handlePrev 0 (cards.length : Int) = (cards.length : Int) - 1 ∧
      (0 ≤ handleNext i (cards.length : Int) ∧
        handleNext i (cards.length : Int) < (cards.length : Int)) ∧
      (0 ≤ handlePrev i (cards.length : Int) ∧
        handlePrev i (cards.length : Int) < (cards.length : Int)) := by
  have hlpos : 0 < cards.length := List.length_pos.mpr hne
  have hpos : (0 : Int) < (cards.length : Int) := by exact_mod_cast hlpos
  have hne0 : (cards.length : Int) ≠ 0 := ne_of_gt hpos
  refine ⟨?_, ?_, ⟨?_, ?_⟩, ⟨?_, ?_⟩⟩
  · show ((cards.length : Int) - 1 + 1) % (cards.length : Int) = 0
    have : (cards.length : Int) - 1 + 1 = (cards.length : Int) := by ring
    rw [this, Int.emod_self]
  · show ((0 : Int) - 1 + (cards.length : Int)) % (cards.length : Int) = (cards.length : Int) - 1
    have h1 : (0 : Int) - 1 + (cards.length : Int) = (cards.length : Int) - 1 := by ring
    rw [h1]
    exact Int.emod_eq_of_lt (by omega) (by omega)
  · exact Int.emod_nonneg _ hne0
  · exact Int.emod_lt_of_pos _ hpos
  · exact Int.emod_nonneg _ hne0
  · exact Int.emod_lt_of_pos _ hpos

/-- Witness for C8 on a concrete two-card list at index 1. -/
theorem C8_flashcard_navigation_wraps_witness :
    let cards : List Flashcard := [⟨"f1", "b1", none, none⟩, ⟨"f2", "b2", none, none⟩]
    handleNext ((cards.length : Int) - 1) (cards.length : Int) = 0 ∧
      handlePrev 0 (cards.length : Int) = (cards.length : Int) - 1 ∧
      (0 ≤ handleNext 1 (cards.length : Int) ∧
        handleNext 1 (cards.length : Int) < (cards.length : Int)) ∧
      (0 ≤ handlePrev 1 (cards.length : Int) ∧
        handlePrev 1 (cards.length : Int) < (cards.length : Int)) :=
  C8_flashcard_navigation_wraps _ 1 (by decide) (by decide) (by decide)

/-- C10: pressing Stop while the planner timer is running with a positive
count sets only the running flag to false (seconds and mode are
unchanged), the next timer instant fires no notification, and in general
a notification fires exactly at an instant where the count is zero while
the timer is still running. -/
theorem C10_stop_button_frame (st : TimerState)
    (hrun : st.isTimerRunning = true) (hpos : 0 < st.timerSeconds) :
    stopButton st =
        { timerSeconds := st.timerSeconds, isTimerRunning := false,
          timerMode := st.timerMode } ∧
      (timerStep (stopButton st)).2 = false ∧
      (∀ st' : TimerState,
        (timerStep st').2 = true ↔ st'.timerSeconds = 0 ∧ st'.isTimerRunning = true) := by
  refine ⟨rfl, ?_, ?_⟩
  · simp [timerStep, stopButton]
  · intro st'
    by_cases h1 : st'.isTimerRunning = true ∧ st'.timerSeconds > 0
    · simp [timerStep, h1]
      omega
    · by_cases h2 : st'.timerSeconds = 0 ∧ st'.isTimerRunning = true <;>
        simp [timerStep, h1, h2]

/-- A stopped timer is a fixed point: no state change, no notification. -/
theorem runTimer_stopped (n : Nat) (st : TimerState)
    (h : st.isTimerRunning = false) : runTimer st n = (st, 0) := by
  induction n with
  | zero => rfl
  | succ n ih =>
    have hstep : timerStep st = (st, false) := by
      simp [timerStep, h]
    simp [runTimer, hstep, ih]

/-- A running timer with `s` seconds left reaches zero after `s`
decrements, then stops and notifies exactly once, whatever extra
instants (`k`) elapse afterwards. -/
theorem runTimer_counts (s : Nat) (m : String) (k : Nat) :
    runTimer { timerSeconds := s, isTimerRunning := true, timerMode := m } (s + 1 + k) =
      ({ timerSeconds := 0, isTimerRunning := false, timerMode := m }, 1) := by
  induction s with
  | zero =>
    have hstep :
        timerStep { timerSeconds := 0, isTimerRunning := true, timerMode := m } =
          ({ timerSeconds := 0, isTimerRunning := false, timerMode := m }, true) := by
      simp [timerStep]
    have hstop :=
      runTimer_stopped k { timerSeconds := 0, isTimerRunning := false, timerMode := m } rfl
    have h1 : 0 + 1 + k = k + 1 := by omega
    rw [h1]
    simp [runTimer, hstep, hstop]
  | succ s ih =>
    have hstep :
        timerStep { timerSeconds := s + 1, isTimerRunning := true, timerMode := m } =
          ({ timerSeconds := s, isTimerRunning := true, timerMode := m }, false) := by
      simp [timerStep]
    have harith : s + 1 + 1 + k = (s + 1 + k) + 1 := by omega
    rw [harith]
    simp [runTimer, hstep, ih]

/-- C6: starting a 25-minute focus session sets the count to exactly 1500
seconds; while running each instant decrements by one; once the count
reaches 0 the timer stops and exactly one notification has fired (over
any horizon of at least 1501 instants); and starting a timer always
resets the state from the fixed presets (25 min work / 5 min break),
independently of whatever timer was running before. -/
theorem C6_focus_timer_run (st st' : TimerState) (k : Nat) :
    (startFocusButton st).timerSeconds = 1500 ∧
      startFocusButton st =
        { timerSeconds := 1500, isTimerRunning := true, timerMode := "work" } ∧
      startBreakButton st =
        { timerSeconds := 300, isTimerRunning := true, timerMode := "break" } ∧
      (∀ minutes mode, startTimer st minutes mode = startTimer st' minutes mode) ∧
      (∀ s m, timerStep { timerSeconds := s + 1, isTimerRunning := true, timerMode := m } =
        ({ timerSeconds := s, isTimerRunning := true, timerMode := m }, false)) ∧
      runTimer (startFocusButton st) (1501 + k) =
        ({ timerSeconds := 0, isTimerRunning := false, timerMode := "work" }, 1) := by
  refine ⟨rfl, rfl, rfl, fun minutes mode => rfl, fun s m => by simp [timerStep], ?_⟩
  have h : (1501 : Nat) + k = 1500 + 1 + k := by omega
  rw [h]
  exact runTimer_counts 1500 "work" k

/-- C4: library search first filters the local book set by
case-insensitive substring match of the query against titles; the
external-resource provider call is issued if and only if that filter
yields zero matches and the query is longer than 3 characters, and then
it is issued exactly once (with that query). -/
theorem C4_library_search_external_call (books : List Book) (query : String)
    (provider : String → ExternalResource) :
    ((handleSearch books query provider).externalCalls = [query] ↔
        ((∀ b ∈ books, titleMatches query b = false) ∧ query.length > 3)) ∧
      ((handleSearch books query provider).externalCalls = [query] ∨
        (handleSearch books query provider).externalCalls = []) ∧
      (handleSearch books query provider).externalCalls.length ≤ 1 ∧
      ((handleSearch books query provider).externalCalls = [] ↔
        (localResults books query ≠ [] ∨ ¬query.length > 3)) := by
  have hfilter : (localResults books query).length = 0 ↔
      ∀ b ∈ books, titleMatches query b = false := by
    rw [List.length_eq_zero, localResults, List.filter_eq_nil_iff]
    simp
  by_cases h : (localResults books query).length = 0 ∧ query.length > 3
  · have hcalls : (handleSearch books query provider).externalCalls = [query] := by
      simp only [handleSearch]
      rw [if_pos h]
    rw [hcalls]
    refine ⟨iff_of_true rfl ⟨hfilter.mp h.1, h.2⟩, Or.inl rfl, by simp, ?_⟩
    refine iff_of_false (by simp) ?_
    rintro (hne | hq)
    · exact hne (List.length_eq_zero.mp h.1)
    · exact hq h.2
  · have hcalls : (handleSearch books query provider).externalCalls = [] := by
      simp only [handleSearch]
      rw [if_neg h]
    rw [hcalls]
    refine ⟨?_, Or.inr rfl, by simp, ?_⟩
    · refine iff_of_false (by simp) ?_
      rintro ⟨hall, hq⟩
      exact h ⟨hfilter.mpr hall, hq⟩
    · refine iff_of_true rfl ?_
      rcases Decidable.not_and_iff_or_not.mp h with h1 | h2
      · exact Or.inl fun he => h1 (by rw [he]; rfl)
      · exact Or.inr h2

/-- Folding a full run of answered questions from position `i`: the score
grows by the number of matches over the remaining questions, the run ends
in the terminal `Result` state, and the question list is untouched. -/
theorem quiz_fold_run (qs : List QuizQuestion) :
    ∀ (answers : List Nat) (i s : Nat), answers ≠ [] →
      i + answers.length = qs.length →
      (answers.foldl quizStep
          { questions := qs, currentIndex := i, score := s,
            selectedAnswer := none, showResult := false }).score =
          s + matchCount (qs.drop i) answers ∧
        (answers.foldl quizStep
          { questions := qs, currentIndex := i, score := s,
            selectedAnswer := none, showResult := false }).showResult = true ∧
        (answers.foldl quizStep
          { questions := qs, currentIndex := i, score := s,
            selectedAnswer := none, showResult := false }).questions = qs := by
  intro answers
  induction answers with
  | nil => exact fun i s hne _ => absurd rfl hne
  | cons a tl ih =>
    intro i s _ hlen
    have hi : i < qs.length := by
      simp only [List.length_cons] at hlen
      omega
    have hget : qs[i]? = some qs[i] := List.getElem?_eq_getElem hi
    have hdrop : qs.drop i = qs[i] :: qs.drop (i + 1) := List.drop_eq_getElem_cons hi
    have ha : handleAnswer
        { questions := qs, currentIndex := i, score := s,
          selectedAnswer := none, showResult := false } a =
        { questions := qs, currentIndex := i,
          score := s + (if a = qs[i].correctAnswerIndex then 1 else 0),
          selectedAnswer := some a, showResult := false } := by
      by_cases hc : a = qs[i].correctAnswerIndex <;> simp [handleAnswer, hget, hc]
    match tl with
    | [] =>
      have hnolt : ¬i < qs.length - 1 := by
        simp only [List.length_cons, List.length_nil] at hlen
        omega
      have hnext : quizStep
          { questions := qs, currentIndex := i, score := s,
            selectedAnswer := none, showResult := false } a =
          { questions := qs, currentIndex := i,
            score := s + (if a = qs[i].correctAnswerIndex then 1 else 0),
            selectedAnswer := some a, showResult := true } := by
        rw [quizStep, ha, nextQuestion]
        simp [hnolt]
      rw [List.foldl_cons, hnext, List.foldl_nil, hdrop]
      refine ⟨?_, rfl, rfl⟩
      simp [matchCount]
    | b :: tl' =>
      have hlt : i < qs.length - 1 := by
        simp only [List.length_cons] at hlen
        omega
      have hnext : quizStep
          { questions := qs, currentIndex := i, score := s,
            selectedAnswer := none, showResult := false } a =
          { questions := qs, currentIndex := i + 1,
            score := s + (if a = qs[i].correctAnswerIndex then 1 else 0),
            selectedAnswer := none, showResult := false } := by
        rw [quizStep, ha, nextQuestion]
        simp [hlt]
      have hlen' : (i + 1) + (b :: tl').length = qs.length := by
        simp only [List.length_cons] at hlen ⊢
        omega
      obtain ⟨ihs, ihr, ihq⟩ :=
        ih (i + 1) (s + (if a = qs[i].correctAnswerIndex then 1 else 0))
          (List.cons_ne_nil _ _) hlen'
      rw [List.foldl_cons, hnext]
      refine ⟨?_, ihr, ihq⟩
      rw [ihs, hdrop, matchCount]
      omega

/-- C2: after a full quiz run (one accepted answer per question, then
finishing the last question), the displayed score equals the number of
questions whose first accepted selected index equals that question's
`correctAnswerIndex`, and the terminal `Result` state shows that score
over the total question count. -/
theorem C2_quiz_score (qs : List QuizQuestion) (answers : List Nat)
    (hlen : answers.length = qs.length) (hpos : 0 < qs.length) :
    (runQuiz qs answers).score = matchCount qs answers ∧
      (runQuiz qs answers).showResult = true ∧
      (runQuiz qs answers).questions.length = qs.length := by
  have hne : answers ≠ [] := by
    intro hnil
    rw [hnil] at hlen
    simp at hlen
    omega
  obtain ⟨hs, hr, hq⟩ := quiz_fold_run qs answers 0 0 hne (by omega)
  rw [runQuiz, quizInit]
  refine ⟨?_, hr, by rw [hq]⟩
  rw [hs, List.drop_zero, Nat.zero_add]

/-- Witness for C2 on a concrete two-question quiz where the first answer
is right and the second is wrong. -/
theorem C2_quiz_score_witness :
    let qs : List QuizQuestion :=
      [⟨"q1", ["a", "b"], 0, "e1"⟩, ⟨"q2", ["a", "b"], 1, "e2"⟩]
    let answers : List Nat := [0, 0]
    (runQuiz qs answers).score = matchCount qs answers ∧
      (runQuiz qs answers).showResult = true ∧
      (runQuiz qs answers).questions.length = qs.length :=
  C2_quiz_score _ _ (by decide) (by decide)

/-- C9: the lazy illustration effect preserves the card count, touches no
card other than the currently viewed one, does nothing at all when the
current card already has a (truthy) image, issues its fetch exactly when
the current card lacks an image and has a truthy image keyword, and never
changes the `generatedImage` of any card on which it is already set. -/
theorem C9_lazy_image_fetch (cards : List Flashcard) (i : Nat)
    (illustrate : String → Option String) :
    (loadImg cards i illustrate).1.length = cards.length ∧
      (∀ j : Nat, j ≠ i → (loadImg cards i illustrate).1[j]? = cards[j]?) ∧
      (∀ card : Flashcard, cards[i]? = some card →
        strTruthy card.generatedImage = true →
        loadImg cards i illustrate = (cards, none)) ∧
      (loadImg cards i illustrate).2.isSome = shouldFetch cards i ∧
      (∀ (j : Nat) (card card' : Flashcard), cards[j]? = some card →
        (loadImg cards i illustrate).1[j]? = some card' →
        strTruthy card.generatedImage = true →
        card'.generatedImage = card.generatedImage) := by
  have stable : ∀ res : List Flashcard × Option String,
      loadImg cards i illustrate = res → res.1 = cards →
      (loadImg cards i illustrate).1.length = cards.length ∧
        (∀ j : Nat, j ≠ i → (loadImg cards i illustrate).1[j]? = cards[j]?) ∧
        (∀ (j : Nat) (card card' : Flashcard), cards[j]? = some card →
          (loadImg cards i illustrate).1[j]? = some card' →
          strTruthy card.generatedImage = true →
          card'.generatedImage = card.generatedImage) := by
    rintro res hres hsame
    rw [hres, hsame]
    refine ⟨rfl, fun j _ => rfl, ?_⟩
    intro j card card' hc hc' _
    rw [hc] at hc'
    injection hc' with h
    rw [← h]
  rcases hci : cards[i]? with _ | card
  · have hres : loadImg cards i illustrate = (cards, none) := by
      simp only [loadImg, hci]
    have hsf : shouldFetch cards i = false := by
      simp only [shouldFetch, hci]
    obtain ⟨h1, h2, h5⟩ := stable _ hres rfl
    exact ⟨h1, h2, fun card hc _ => hres, by rw [hres, hsf]; rfl, h5⟩
  · rcases hkw : card.imageKeyword with _ | kw
    · have hres : loadImg cards i illustrate = (cards, none) := by
        simp only [loadImg, hci, hkw]
      have hsf : shouldFetch cards i = false := by
        simp only [shouldFetch, hci, hkw, strTruthy, Bool.and_false]
      obtain ⟨h1, h2, h5⟩ := stable _ hres rfl
      exact ⟨h1, h2, fun c hc _ => hres, by rw [hres, hsf]; rfl, h5⟩
    · have hsf : shouldFetch cards i = (!strTruthy card.generatedImage && (kw != "")) := by
        simp only [shouldFetch, hci, hkw]
        rfl
      by_cases hcond : (!strTruthy card.generatedImage && kw != "") = true
      · have himg : strTruthy card.generatedImage = false := by
          rcases Bool.and_eq_true_iff.mp hcond with ⟨h1, _⟩
          simpa using h1
        have hnothing : ∀ c : Flashcard, some card = some c →
            strTruthy c.generatedImage = true → loadImg cards i illustrate = (cards, none) := by
          intro c hc hset
          injection hc with h
          rw [← h, himg] at hset
          exact absurd hset (by simp)
        rcases hill : illustrate kw with _ | imgData
        · have hres : loadImg cards i illustrate = (cards, some kw) := by
            simp only [loadImg, hci, hkw, hcond, if_true, hill]
          obtain ⟨h1, h2, h5⟩ := stable _ hres rfl
          refine ⟨h1, h2, hnothing, ?_, h5⟩
          rw [hres, hsf, hcond]
          rfl
        · have hres : loadImg cards i illustrate =
              (cards.set i { card with generatedImage := some imgData }, some kw) := by
            simp only [loadImg, hci, hkw, hcond, if_true, hill]
          refine ⟨by rw [hres]; simp, ?_, hnothing, ?_, ?_⟩
          · intro j hj
            rw [hres]
            exact List.getElem?_set_ne fun he => hj he.symm
          · rw [hres, hsf, hcond]
            rfl
          · intro j c c' hc hc' hset
            by_cases hji : j = i
            · rw [hji, hci] at hc
              injection hc with h
              rw [← h, himg] at hset
              exact absurd hset (by simp)
            · rw [hres, List.getElem?_set_ne (fun he => hji he.symm), hc] at hc'
              injection hc' with h
              rw [← h]
      · have hcondf : (!strTruthy card.generatedImage && kw != "") = false := by
          revert hcond
          cases !strTruthy card.generatedImage && kw != "" <;> simp
        have hres : loadImg cards i illustrate = (cards, none) := by
          simp only [loadImg, hci, hkw, hcondf, Bool.false_eq_true, if_false]
        obtain ⟨h1, h2, h5⟩ := stable _ hres rfl
        refine ⟨h1, h2, fun c hc _ => hres, ?_, h5⟩
        rw [hres, hsf, hcondf]
        rfl

/-- Witness for C10 at a concrete running timer state. -/
theorem C10_stop_button_frame_witness :
    let st : TimerState := { timerSeconds := 100, isTimerRunning := true, timerMode := "work" }
    stopButton st =
        { timerSeconds := st.timerSeconds, isTimerRunning := false,
          timerMode := st.timerMode } ∧
      (timerStep (stopButton st)).2 = false ∧
      (∀ st' : TimerState,
        (timerStep st').2 = true ↔ st'.timerSeconds = 0 ∧ st'.isTimerRunning = true) :=
  C10_stop_button_frame _ rfl (by decide)

/-- `updMsg` never changes a message's id. -/
theorem updMsg_id (aiMsgId t : String) (m : Message) :
    (updMsg aiMsgId t m).id = m.id := by
  by_cases h : m.id = aiMsgId <;> simp [updMsg, h]

/-- Two successive wholesale text replacements collapse to the last one. -/
theorem updMsg_updMsg (aiMsgId t1 t2 : String) (m : Message) :
    updMsg aiMsgId t2 (updMsg aiMsgId t1 m) = updMsg aiMsgId t2 m := by
  by_cases h : m.id = aiMsgId <;> simp [updMsg, h]

/-- The last element of a mapped concat-list. -/
theorem getLast_map_concat (f : Message → Message) (l : List Message) (p : Message) :
    ((l ++ [p]).map f).getLast? = some (f p) := by
  rw [List.map_append]
  simp [List.getLast?_concat]

/-- The `streamChatResponse` fold from an arbitrary accumulator:
it appends exactly the non-empty chunks, in order, to both the text
buffer and the delivered list. -/
theorem streamChatDeliver_from (chunks : List String) :
    ∀ (ft : String) (acc : List String),
      chunks.foldl (fun st c => if c != "" then (st.1 ++ c, st.2 ++ [c]) else st) (ft, acc) =
        (ft ++ concatList (chunks.filter (fun c => c != "")),
          acc ++ chunks.filter (fun c => c != "")) := by
  induction chunks with
  | nil => intro ft acc; simp [concatList]
  | cons c rest ih =>
    intro ft acc
    by_cases hc : (c != "") = true
    · rw [List.foldl_cons, if_pos hc, ih, List.filter_cons, if_pos hc, concatList]
      rw [String.append_assoc, List.append_assoc]
      rfl
    · have hc' : (c != "") = false := by
        revert hc
        cases c != "" <;> simp
      rw [List.foldl_cons, hc', List.filter_cons, hc']
      simp only [Bool.false_eq_true, if_false]
      exact ih ft acc

/-- `streamChatResponse` delivers exactly the non-empty chunks in arrival
order, and its `fullText` is their concatenation. -/
theorem streamChatDeliver_eq (chunks : List String) :
    streamChatDeliver chunks =
      (concatList (chunks.filter (fun c => c != "")),
        chunks.filter (fun c => c != "")) := by
  rw [streamChatDeliver, streamChatDeliver_from]
  simp

/-- The `onChunk` fold of `handleSend` from an arbitrary buffer: every
message whose id matches is mapped to carry the final cumulative buffer,
and the buffer grows by the concatenation of the delivered fragments. -/
theorem applyChunks_from (aiMsgId : String) (delivered : List String) :
    ∀ (msgs : List Message) (buf : String),
      delivered.foldl
        (fun st chunk =>
          let fullText := st.2 ++ chunk
          (st.1.map (updMsg aiMsgId fullText), fullText)) (msgs, buf) =
      ((if delivered = [] then msgs
        else msgs.map (updMsg aiMsgId (buf ++ concatList delivered))),
        buf ++ concatList delivered) := by
  induction delivered with
  | nil => intro msgs buf; simp [concatList]
  | cons c rest ih =>
    intro msgs buf
    rw [List.foldl_cons]
    simp only []
    rw [ih (msgs.map (updMsg aiMsgId (buf ++ c))) (buf ++ c)]
    rcases rest with _ | ⟨d, rest2⟩
    · simp [concatList, String.append_assoc]
    · have htext : (buf ++ c) ++ concatList (d :: rest2) =
          buf ++ concatList (c :: d :: rest2) := by
        rw [show concatList (c :: d :: rest2) = c ++ concatList (d :: rest2) from rfl,
          String.append_assoc]
      rw [if_neg (List.cons_ne_nil _ _), if_neg (List.cons_ne_nil _ _), List.map_map, htext]
      refine congrArg (fun l => (l, buf ++ concatList (c :: d :: rest2))) ?_
      refine List.map_congr_left fun m _ => ?_
      simp only [Function.comp_apply]
      exact updMsg_updMsg aiMsgId _ _ m

/-- Closed form of `applyChunks`. -/
theorem applyChunks_eq (msgs : List Message) (aiMsgId : String) (delivered : List String) :
    applyChunks msgs aiMsgId delivered =
      ((if delivered = [] then msgs
        else msgs.map (updMsg aiMsgId (concatList delivered))),
        concatList delivered) := by
  rw [applyChunks, applyChunks_from]
  simp

/-- The optimistic message list ends in the placeholder. -/
theorem chatMsgs1_concat (st : ChatState) (input : String) (now : Nat) :
    chatMsgs1 st input now = (st.messages ++ [sendUserMsg input now]) ++ [sendPlaceholder now] := by
  rw [chatMsgs1, List.append_assoc]
  rfl

/-- After applying any delivered fragment list, the last message of the
transcript (the model-role placeholder) carries exactly the cumulative
buffer. -/
theorem applyChunks_last_eq_buffer (st : ChatState) (input : String) (now : Nat)
    (d : List String) :
    ((applyChunks (chatMsgs1 st input now) (sendAiMsgId now) d).1.getLast?).map Message.text =
      some ((applyChunks (chatMsgs1 st input now) (sendAiMsgId now) d).2) := by
  rw [applyChunks_eq]
  rcases d with _ | ⟨c, rest⟩
  · rw [if_pos rfl, chatMsgs1_concat, List.getLast?_concat]
    rfl
  · rw [if_neg (List.cons_ne_nil _ _), chatMsgs1_concat, getLast_map_concat]
    have hid : (sendPlaceholder now).id = sendAiMsgId now := rfl
    simp [updMsg, hid]

/-- C1: for a completed chat turn, the final text of the model-role
placeholder (the last message of the transcript) equals the concatenation,
in arrival order, of all non-empty streamed fragments; after any prefix of
the stream the placeholder's text has been replaced wholesale with the
cumulative buffer; and an empty fragment is skipped without terminating
the stream (the remaining fragments are still processed). -/
theorem C1_stream_concat (st : ChatState) (input : String) (now : Nat)
    (chunks : List String) (hin : ¬strTrim input = "") :
    ((handleSend st input now (StreamOutcome.success chunks)).messages.getLast?).map
        Message.text =
      some (concatList (chunks.filter (fun c => c != ""))) ∧
      (∀ pre : List String,
        ((applyChunks (chatMsgs1 st input now) (sendAiMsgId now)
            (streamChatDeliver pre).2).1.getLast?).map Message.text =
          some ((applyChunks (chatMsgs1 st input now) (sendAiMsgId now)
            (streamChatDeliver pre).2).2)) ∧
      (∀ pre suf : List String,
        streamChatDeliver (pre ++ "" :: suf) = streamChatDeliver (pre ++ suf)) := by
  have hmsgs : (handleSend st input now (StreamOutcome.success chunks)).messages =
      (applyChunks (chatMsgs1 st input now) (sendAiMsgId now)
        (streamChatDeliver chunks).2).1 := by
    simp only [handleSend, if_neg hin]
  refine ⟨?_, fun pre => applyChunks_last_eq_buffer st input now _, ?_⟩
  · rw [hmsgs, applyChunks_last_eq_buffer, applyChunks_eq, streamChatDeliver_eq]
  · intro pre suf
    rw [streamChatDeliver_eq, streamChatDeliver_eq, List.filter_append, List.filter_append,
      List.filter_cons]
    rfl

/-- Witness for C1: a concrete turn with two fragments separated by an
empty one. -/
theorem C1_stream_concat_witness :
    let st : ChatState := { messages := [], isTyping := false }
    ((handleSend st "hello" 7 (StreamOutcome.success ["He", "", "llo"])).messages.getLast?).map
        Message.text =
      some (concatList (["He", "", "llo"].filter (fun c => c != ""))) ∧
      (∀ pre : List String,
        ((applyChunks (chatMsgs1 st "hello" 7) (sendAiMsgId 7)
            (streamChatDeliver pre).2).1.getLast?).map Message.text =
          some ((applyChunks (chatMsgs1 st "hello" 7) (sendAiMsgId 7)
            (streamChatDeliver pre).2).2)) ∧
      (∀ pre suf : List String,
        streamChatDeliver (pre ++ "" :: suf) = streamChatDeliver (pre ++ suf)) :=
  C1_stream_concat _ "hello" 7 ["He", "", "llo"] (by decide)

/-- C7: if the streaming provider call raises an error at any point during
a turn, the placeholder model message's text is overwritten with the fixed
apology string (so no partial fragment buffer survives in it), and the
typing flag ends up cleared — on the failure path and on the success path
alike (the `finally` step). -/
theorem C7_stream_failure_apology (st : ChatState) (input : String) (now : Nat)
    (delivered : List String) (hin : ¬strTrim input = "") :
    ((handleSend st input now (StreamOutcome.failure delivered)).messages.getLast?).map
        Message.text = some apologyText ∧
      (∀ m ∈ (handleSend st input now (StreamOutcome.failure delivered)).messages,
        m.id = sendAiMsgId now → m.text = apologyText) ∧
      (handleSend st input now (StreamOutcome.failure delivered)).isTyping = false ∧
      (∀ chunks : List String,
        (handleSend st input now (StreamOutcome.success chunks)).isTyping = false) := by
  have hmsgs : (handleSend st input now (StreamOutcome.failure delivered)).messages =
      ((applyChunks (chatMsgs1 st input now) (sendAiMsgId now) delivered).1).map
        (updMsg (sendAiMsgId now) apologyText) := by
    simp only [handleSend, if_neg hin]
  refine ⟨?_, ?_, ?_, ?_⟩
  · rw [hmsgs, applyChunks_eq]
    rcases delivered with _ | ⟨c, rest⟩
    · rw [if_pos rfl, chatMsgs1_concat, getLast_map_concat]
      have hid : (sendPlaceholder now).id = sendAiMsgId now := rfl
      simp [updMsg, hid]
    · rw [if_neg (List.cons_ne_nil _ _), chatMsgs1_concat, List.map_append,
        List.map_cons, List.map_nil, getLast_map_concat, updMsg_updMsg]
      have hid : (sendPlaceholder now).id = sendAiMsgId now := rfl
      simp [updMsg, hid]
  · intro m hm hid
    rw [hmsgs] at hm
    rcases List.mem_map.mp hm with ⟨m0, _, hmap⟩
    have hid0 : m0.id = sendAiMsgId now := by
      rw [← updMsg_id (sendAiMsgId now) apologyText m0, hmap]
      exact hid
    rw [← hmap, updMsg, if_pos hid0]
  · simp only [handleSend, if_neg hin]
  · intro chunks
    simp only [handleSend, if_neg hin]

/-- Witness for C7: a concrete failed turn after one delivered fragment. -/
theorem C7_stream_failure_apology_witness :
    let st : ChatState := { messages := [], isTyping := false }
    ((handleSend st "hi" 3 (StreamOutcome.failure ["par"])).messages.getLast?).map
        Message.text = some apologyText ∧
      (∀ m ∈ (handleSend st "hi" 3 (StreamOutcome.failure ["par"])).messages,
        m.id = sendAiMsgId 3 → m.text = apologyText) ∧
      (handleSend st "hi" 3 (StreamOutcome.failure ["par"])).isTyping = false ∧
      (∀ chunks : List String,
        (handleSend st "hi" 3 (StreamOutcome.success chunks)).isTyping = false) :=
  C7_stream_failure_apology _ "hi" 3 ["par"] (by decide)

end LearnAndConquer
